import Mathlib

/-!
Shallow embedding of the NOSE discrete-event scheduling simulator
(files des.py, process.py, event.py of the repository).

Times and durations are modelled as rationals.  Python exceptions are
modelled by the SimError type together with Except-valued functions; a
Python method that cannot raise is modelled as a total function.  The
global numpy random generator seeded by generate_and_init is modelled by
an abstract draw stream: a function from draw index to the value of the
corresponding standard-exponential draw, so that numpy.random.exponential
with scale s yields s times the draw.
-/

/-- Error kinds of the simulator, following the taxonomy of the design
specification.  Python ValueError raised at configuration or entity
construction time is invalidConfiguration; ValueError raised when querying
the departure time of a non-terminated process is illegalStateTransition;
ValueError raised in the engine loop on a policy contract breach is
engineInvariantViolation.  outOfFuel is a modelling artifact used to bound
the unbounded while loop of the engine. -/
inductive SimError where
  | invalidConfiguration
  | invalidArgument
  | illegalStateTransition
  | engineInvariantViolation
  | emptyQueue
  | indexError
  | outOfFuel
  deriving DecidableEq, Repr

/-- States of a process, from process.py (class ProcessStates). -/
inductive ProcessStates where
  | NEW
  | READY
  | RUNNING
  | TERMINATED
  deriving DecidableEq, Repr

/-- A process, from process.py (class Process).  Fields mirror the
instance attributes set in Process.init. -/
structure Process where
  process_id : Nat
  arrival_time : ℚ
  service_time : ℚ
  process_state : ProcessStates
  remaining_time : ℚ
  execution_times : List (ℚ × ℚ)
  deriving DecidableEq, Repr

/-- Constructor validation of Process.init: arrival_time must be a
non-negative real and service_time a strictly positive real (the
process_id non-negativity check is subsumed by the Nat type).  On success
the process starts NEW with remaining_time equal to service_time and an
empty interval list. -/
def Process.make (process_id : Nat) (arrival_time service_time : ℚ) :
    Except SimError Process :=
  if ¬ (0 ≤ arrival_time) then .error .invalidConfiguration
  else if ¬ (0 < service_time) then .error .invalidConfiguration
  else .ok ⟨process_id, arrival_time, service_time, ProcessStates.NEW,
            service_time, []⟩

/-- Process.run_for from process.py: runs the process for
min(quantum, remaining_time), decrements remaining_time by that amount,
appends the interval (cur_time, cur_time + actual) to execution_times and
returns the actual duration.  The source performs no validation of the
quantum argument. -/
def Process.run_for (p : Process) (quantum cur_time : ℚ) : ℚ × Process :=
  let actually_run_for := min quantum p.remaining_time
  (actually_run_for,
   { p with remaining_time := p.remaining_time - actually_run_for,
            execution_times :=
              p.execution_times ++ [(cur_time, cur_time + actually_run_for)] })

/-- Process.departure_time from process.py: raises (ValueError, classified
as illegalStateTransition) unless the process is TERMINATED; otherwise
returns the second component of the last recorded execution interval (an
empty interval list would raise IndexError in the source). -/
def Process.departure_time (p : Process) : Except SimError ℚ :=
  if p.process_state ≠ ProcessStates.TERMINATED then
    .error .illegalStateTransition
  else
    match p.execution_times.getLast? with
    | some t => .ok t.2
    | none => .error .indexError

/-- Process.waiting_time from process.py: sums the gaps between the
arrival time and the successive execution intervals. -/
def Process.waiting_time (p : Process) : ℚ :=
  (p.execution_times.foldl
    (fun (acc : ℚ × ℚ) t => (acc.1 + (t.1 - acc.2), t.2))
    ((0 : ℚ), p.arrival_time)).1

/-- Process.turnaround_time from process.py: departure time minus arrival
time (propagates the departure-time error when not TERMINATED). -/
def Process.turnaround_time (p : Process) : Except SimError ℚ :=
  p.departure_time.map (fun d => d - p.arrival_time)

/-- Event types, from event.py (class EventTypes). -/
inductive EventTypes where
  | PROC_ARRIVES
  | PROC_CPU_REQ
  | PROC_CPU_DONE
  deriving DecidableEq, Repr

/-- An event, from event.py (class Event). -/
structure Event where
  process_id : Nat
  event_time : ℚ
  event_type : EventTypes
  deriving DecidableEq, Repr

/-- Constructor validation of Event.init: event_time must be non-negative
(the process_id check is subsumed by the Nat type, the event_type check by
the EventTypes type). -/
def Event.make (process_id : Nat) (event_time : ℚ) (event_type : EventTypes) :
    Except SimError Event :=
  if ¬ (0 ≤ event_time) then .error .invalidConfiguration
  else .ok ⟨process_id, event_time, event_type⟩

/-- bisect.insort on a list of events, comparing with Event.lt which
orders solely by event_time: the new event is inserted before the first
strictly later event (after any equal-time events, matching insort-right
semantics). -/
def insort (x : Event) : List Event → List Event
  | [] => [x]
  | y :: ys =>
      if x.event_time < y.event_time then x :: y :: ys else y :: insort x ys

/-- The operations the engine performs on the events queue: ordered
insertion (bisect.insort) and removal of the front element (deque
popleft). -/
inductive QueueOp where
  | insert (e : Event)
  | popEarliest

/-- Apply one queue operation. -/
def applyOp (q : List Event) : QueueOp → List Event
  | .insert e => insort e q
  | .popEarliest => q.tail

/-- A linear scan of the queue is non-decreasing in event_time. -/
def timeOrdered (q : List Event) : Prop :=
  List.Chain' (fun a b => a.event_time ≤ b.event_time) q

/-- Configuration of the simulator, from SchedulerDES.init in des.py.
The quantum defaults to math.inf in the source; an infinite quantum is
modelled as none. -/
structure DESConfig where
  num_processes : Nat
  arrivals_per_time_unit : ℚ
  avg_cpu_burst_time : ℚ
  context_switch_time : ℚ
  quantum : Option ℚ
  deriving DecidableEq, Repr

/-- The quantum check of SchedulerDES.init: math.inf (none) passes the
strict positivity test, a finite quantum must be positive. -/
def quantumOk : Option ℚ → Bool
  | none => true
  | some q => decide (0 < q)

/-- Constructor validation of SchedulerDES.init: num_processes must be a
positive integer, arrivals_per_time_unit strictly positive,
avg_cpu_burst_time non-negative (the source checks avg >= 0 although its
error message speaks of a positive number), context_switch_time
non-negative, and the quantum strictly positive (math.inf passes). -/
def SchedulerDES.make (num_processes : Int)
    (arrivals_per_time_unit avg_cpu_burst_time context_switch_time : ℚ)
    (quantum : Option ℚ) : Except SimError DESConfig :=
  if ¬ (0 < num_processes) then .error .invalidConfiguration
  else if ¬ (0 < arrivals_per_time_unit) then .error .invalidConfiguration
  else if ¬ (0 ≤ avg_cpu_burst_time) then .error .invalidConfiguration
  else if ¬ (0 ≤ context_switch_time) then .error .invalidConfiguration
  else if ¬ (quantumOk quantum = true) then .error .invalidConfiguration
  else .ok ⟨num_processes.toNat, arrivals_per_time_unit, avg_cpu_burst_time,
            context_switch_time, quantum⟩

/-- Generation loop of SchedulerDES.generate_and_init: for each process
index i, advance cur_time by an inter-arrival draw (exponential with scale
1/arrival rate, i.e. scale times the standard draw at stream position 2i),
create the process with an exponential service time (scale
avg_cpu_burst_time, stream position 2i+1), and insort its arrival event.
The first argument is the number of processes still to generate. -/
def genLoop (rate avg : ℚ) (rng : Nat → ℚ) :
    Nat → Nat → ℚ → List Process → List Event →
    Except SimError (List Process × List Event)
  | 0, _, _, procs, evs => .ok (procs, evs)
  | k + 1, i, cur_time, procs, evs =>
    let cur_time' := cur_time + (1 / rate) * rng (2 * i)
    match Process.make i cur_time' (avg * rng (2 * i + 1)) with
    | .error e => .error e
    | .ok p =>
      match Event.make i cur_time' EventTypes.PROC_ARRIVES with
      | .error e => .error e
      | .ok ev =>
          genLoop rate avg rng k (i + 1) cur_time' (procs ++ [p])
            (insort ev evs)

/-- SchedulerDES.generate_and_init from des.py: resets the state and
generates num_processes processes together with their arrival events,
starting from cur_time 0.  The rng argument is the seeded draw stream. -/
def generate_and_init (cfg : DESConfig) (rng : Nat → ℚ) :
    Except SimError (List Process × List Event) :=
  genLoop cfg.arrivals_per_time_unit cfg.avg_cpu_burst_time rng
    cfg.num_processes 0 0 [] []

/-- Mutable state of the engine, from SchedulerDES: the logical clock, the
events queue, the process table and the process holding the CPU.  The
source stores the Process object itself in process_on_cpu and compares
with object identity; since generated process ids are unique, the holder
is identified here by its id.  The trace field is an observer recording
the sequence of events removed from the queue, used only to state
properties of a run. -/
structure SimState where
  time : ℚ
  events_queue : List Event
  processes : List Process
  process_on_cpu : Option Nat
  trace : List Event
  deriving DecidableEq, Repr

/-- A scheduling policy: the two methods a concrete scheduler overrides.
scheduler_func selects the process to run next given the engine state and
the current event (None models a scheduler returning no process);
dispatcher_func executes the selected process, returning the updated
process table (the source mutates the shared Process objects in place)
and the follow-up event. -/
structure Policy where
  scheduler_func : SimState → Event → Option Process
  dispatcher_func : SimState → Process → List Process × Event

/-- SchedulerDES.update_process_states (private helper in des.py): every
NEW process whose arrival time has passed becomes READY. -/
def updateProcessStates (time : ℚ) (procs : List Process) : List Process :=
  procs.map fun p =>
    if p.arrival_time ≤ time ∧ p.process_state = ProcessStates.NEW then
      { p with process_state := ProcessStates.READY }
    else p

/-- The context-switch step of the engine loop (des.py lines 192 to 196):
if the selected process differs from the one holding the CPU, record it as
the holder and advance the clock by the context switch time. -/
def contextSwitchPhase (cs : ℚ) (pid : Nat) (st : SimState) : SimState :=
  if some pid ≠ st.process_on_cpu then
    { st with process_on_cpu := some pid, time := st.time + cs }
  else st

/-- One iteration of the while loop of SchedulerDES.run: pop the front
event, advance the clock to its time if later, promote arrived NEW
processes, run the scheduler (failing if it selects nothing or a process
that is not READY), apply the context-switch step, run the dispatcher,
insort the follow-up event unless it is PROC_CPU_DONE, and set the clock
to the follow-up event time. -/
def runStep (cs : ℚ) (pol : Policy) (st : SimState) : Except SimError SimState :=
  match st.events_queue with
  | [] => .error .emptyQueue
  | cur_event :: rest =>
    let time1 := if st.time < cur_event.event_time then cur_event.event_time
                 else st.time
    let st1 : SimState :=
      { st with time := time1, events_queue := rest,
                processes := updateProcessStates time1 st.processes,
                trace := st.trace ++ [cur_event] }
    match pol.scheduler_func st1 cur_event with
    | none => .error .engineInvariantViolation
    | some process_to_run =>
      if process_to_run.process_state ≠ ProcessStates.READY then
        .error .engineInvariantViolation
      else
        let st2 := contextSwitchPhase cs process_to_run.process_id st1
        let dres := pol.dispatcher_func st2 process_to_run
        let queue2 :=
          if dres.2.event_type ≠ EventTypes.PROC_CPU_DONE then
            insort dres.2 st2.events_queue
          else st2.events_queue
        .ok { st2 with processes := dres.1, events_queue := queue2,
                       time := dres.2.event_time }

/-- The while loop of SchedulerDES.run, bounded by fuel: the loop exits
normally (returning the state) as soon as the events queue is empty;
otherwise it performs one step and continues. -/
def runLoop (cs : ℚ) (pol : Policy) : Nat → SimState → Except SimError SimState
  | 0, st =>
      if st.events_queue.isEmpty then .ok st else .error .outOfFuel
  | fuel + 1, st =>
      if st.events_queue.isEmpty then .ok st
      else
        match runStep cs pol st with
        | .error e => .error e
        | .ok st' => runLoop cs pol fuel st'

/-- The clock values observed at the start of each executed loop
iteration (an observer over runLoop). -/
def runTimes (cs : ℚ) (pol : Policy) : Nat → SimState → List ℚ
  | 0, _ => []
  | fuel + 1, st =>
      if st.events_queue.isEmpty then []
      else
        match runStep cs pol st with
        | .error _ => [st.time]
        | .ok st' => st.time :: runTimes cs pol fuel st'

/-- Initial engine state after generation: clock 0, no process on the CPU
(the source initialises process_on_cpu to None). -/
def initSimState (procs : List Process) (evs : List Event) : SimState :=
  ⟨0, evs, procs, none, []⟩

/-- SchedulerDES.run from des.py: generate the workload from the seeded
draw stream, then run the while loop from the initial state.  rngF maps a
seed to the draw stream produced by the generator seeded with it. -/
def run (cfg : DESConfig) (pol : Policy) (rngF : Option Nat → Nat → ℚ)
    (seed : Option Nat) (fuel : Nat) : Except SimError SimState :=
  match generate_and_init cfg (rngF seed) with
  | .error e => .error e
  | .ok (procs, evs) =>
      runLoop cfg.context_switch_time pol fuel (initSimState procs evs)

/-- Per-process final statistics: turnaround time and waiting time, as
computed by print_statistics in des.py. -/
def finalStatistics (st : SimState) : List (Except SimError ℚ × ℚ) :=
  st.processes.map fun p => (p.turnaround_time, p.waiting_time)

/-- Observer for run outcomes: the list of final process states on normal
termination, none on an error. -/
def runOutcome (e : Except SimError SimState) : Option (List ProcessStates) :=
  match e with
  | .ok st => some (st.processes.map Process.process_state)
  | .error _ => none

/-- A scheduler selecting the first READY process of the table, used by
concrete policies below. -/
def firstReady (st : SimState) (_ : Event) : Option Process :=
  st.processes.find? fun p => decide (p.process_state = ProcessStates.READY)

/-- Configuration with one process, arrival rate 1, mean burst 1, zero
context switch cost and infinite quantum. -/
def cfgOne : DESConfig := ⟨1, 1, 1, 0, none⟩

/-- Draw-stream family whose every standard-exponential draw is 1,
regardless of the seed. -/
def rngOne : Option Nat → Nat → ℚ := fun _ _ => 1

/-- A policy whose dispatcher reports the process done at the current
clock without terminating it: the follow-up event is PROC_CPU_DONE, so the
queue drains while the process stays READY. -/
def polDrain : Policy :=
  ⟨firstReady,
   fun st p => (st.processes, ⟨p.process_id, st.time, EventTypes.PROC_CPU_DONE⟩)⟩

/-- A policy whose dispatcher violates the dispatch contract: its first
follow-up event is at time 5, every later one at time 2, each of type
PROC_CPU_REQ (both are valid Event values, with non-negative times). -/
def polBackward : Policy :=
  ⟨firstReady,
   fun st p =>
     (st.processes,
      ⟨p.process_id, if st.time = 0 then 5 else 2, EventTypes.PROC_CPU_REQ⟩)⟩

/-- Initial state for the clock counterexample: one NEW process arriving
at time 0 with service time 1, and its arrival event queued. -/
def stBackward : SimState :=
  initSimState [⟨0, 0, 1, ProcessStates.NEW, 1, []⟩]
    [⟨0, 0, EventTypes.PROC_ARRIVES⟩]

/-- A policy whose dispatcher runs the selected process to completion and
reports PROC_CPU_DONE at the clock value reached, marking the process
TERMINATED in the table; it honours the dispatch contract. -/
def polFinish : Policy :=
  ⟨firstReady,
   fun st p =>
     let r := (p.run_for p.remaining_time st.time).2
     let done := { r with process_state := ProcessStates.TERMINATED }
     (st.processes.map fun q => if q.process_id = p.process_id then done else q,
      ⟨p.process_id, st.time + p.remaining_time, EventTypes.PROC_CPU_DONE⟩)⟩

/-- The process generated by cfgOne from the all-ones draw stream. -/
def pGen : Process := ⟨0, 1, 1, ProcessStates.NEW, 1, []⟩

/-- The arrival event generated by cfgOne from the all-ones draw stream. -/
def eGen : Event := ⟨0, 1, EventTypes.PROC_ARRIVES⟩

/-- pGen after being promoted to READY. -/
def pRdy : Process := ⟨0, 1, 1, ProcessStates.READY, 1, []⟩

/-- A second draw-stream family, differing from rngOne on every seed other
than none. -/
def rngTwo : Option Nat → Nat → ℚ :=
  fun s _ => if s = none then 1 else 99

/-- Claim C3: for a process with non-negative remaining time r and a
positive requested duration d, run_for at current time t returns
min(d, r), sets the remaining time to r - min(d, r) and appends exactly
the interval (t, t + min(d, r)) to the execution intervals. -/
theorem claim_C3 (p : Process) (d t : ℚ)
    (hr : 0 ≤ p.remaining_time) (hd : 0 < d) :
    p.run_for d t =
      (min d p.remaining_time,
       { p with
           remaining_time := p.remaining_time - min d p.remaining_time,
           execution_times :=
             p.execution_times ++ [(t, t + min d p.remaining_time)] }) := rfl

/-- Witness for claim C3 at a concrete process with remaining time 5,
duration 2 and current time 10. -/
theorem claim_C3_witness :
    Process.run_for ⟨0, 0, 5, ProcessStates.NEW, 5, []⟩ 2 10 =
      (min 2 5,
       { process_id := 0, arrival_time := 0, service_time := 5,
         process_state := ProcessStates.NEW,
         remaining_time := 5 - min 2 5,
         execution_times := [(10, 10 + min 2 5)] }) :=
  claim_C3 ⟨0, 0, 5, ProcessStates.NEW, 5, []⟩ 2 10 (by norm_num) (by norm_num)

/-- Claim C10: run_for mutates only remaining_time and execution_times;
the process id, arrival time, service time and process state are
unchanged, so any state transition is left to the caller. -/
theorem claim_C10 (p : Process) (q t : ℚ) :
    (p.run_for q t).2.process_id = p.process_id ∧
    (p.run_for q t).2.arrival_time = p.arrival_time ∧
    (p.run_for q t).2.service_time = p.service_time ∧
    (p.run_for q t).2.process_state = p.process_state :=
  ⟨rfl, rfl, rfl, rfl⟩

/-- Counterexample to claim C2 as stated: run_for with the non-positive
duration -1 on a process with remaining time 5 does not fail; it returns
-1 and mutates the state, increasing remaining_time to 6 and appending the
reversed interval (0, -1). -/
theorem claim_C2_cex :
    Process.run_for ⟨0, 0, 5, ProcessStates.NEW, 5, []⟩ (-1) 0 =
      (-1, ⟨0, 0, 5, ProcessStates.NEW, 6, [(0, -1)]⟩) := by
  simp [Process.run_for, Prod.ext_iff, Process.mk.injEq]
  norm_num

/-- Claim C2 as amended: run_for performs no validation of the requested
duration; a zero or negative duration d is processed exactly like a
positive one, running for min(d, remaining_time) and mutating the state
accordingly, with no error raised. -/
theorem claim_C2 (p : Process) (d t : ℚ) (hd : d ≤ 0) :
    p.run_for d t =
      (min d p.remaining_time,
       { p with
           remaining_time := p.remaining_time - min d p.remaining_time,
           execution_times :=
             p.execution_times ++ [(t, t + min d p.remaining_time)] }) := rfl

/-- Witness for the amended claim C2 at duration -1. -/
theorem claim_C2_witness :
    Process.run_for ⟨1, 0, 5, ProcessStates.READY, 5, []⟩ (-1) 0 =
      (min (-1) 5,
       { process_id := 1, arrival_time := 0, service_time := 5,
         process_state := ProcessStates.READY,
         remaining_time := 5 - min (-1) 5,
         execution_times := [(0, 0 + min (-1) 5)] }) :=
  claim_C2 ⟨1, 0, 5, ProcessStates.READY, 5, []⟩ (-1) 0 (by norm_num)

/-- Claim C8: departure_time fails with illegalStateTransition whenever
the process is not TERMINATED, and on a TERMINATED process it returns the
end of the last execution interval. -/
theorem claim_C8 (p : Process) :
    (p.process_state ≠ ProcessStates.TERMINATED →
      p.departure_time = .error .illegalStateTransition) ∧
    (∀ s e : ℚ, p.process_state = ProcessStates.TERMINATED →
      p.execution_times.getLast? = some (s, e) → p.departure_time = .ok e) := by
  constructor
  · intro h
    simp [Process.departure_time, h]
  · intro s e h hl
    simp [Process.departure_time, h, hl]

/-- Witness for claim C8: a NEW process is refused, a TERMINATED process
with last interval (0, 1) departs at 1. -/
theorem claim_C8_witness :
    Process.departure_time ⟨0, 0, 1, ProcessStates.NEW, 1, []⟩ =
      .error .illegalStateTransition ∧
    Process.departure_time ⟨1, 0, 1, ProcessStates.TERMINATED, 0, [(0, 1)]⟩ =
      .ok 1 :=
  ⟨(claim_C8 ⟨0, 0, 1, ProcessStates.NEW, 1, []⟩).1 (by decide),
   (claim_C8 ⟨1, 0, 1, ProcessStates.TERMINATED, 0, [(0, 1)]⟩).2 0 1 rfl rfl⟩

/-- Claim C6: the context-switch step advances the clock by the context
switch time exactly when the selected process differs from the holder of
the CPU; when no process holds the CPU (the initial None sentinel, as in
the state produced by initSimState) the cost is always incurred and the
selected process becomes the holder. -/
theorem claim_C6 (cs : ℚ) (pid : Nat) (st : SimState)
    (procs : List Process) (evs : List Event) :
    ((contextSwitchPhase cs pid st).time =
      st.time + if some pid ≠ st.process_on_cpu then cs else 0) ∧
    (st.process_on_cpu = none →
      (contextSwitchPhase cs pid st).time = st.time + cs ∧
      (contextSwitchPhase cs pid st).process_on_cpu = some pid) ∧
    (initSimState procs evs).process_on_cpu = none := by
  refine ⟨?_, ?_, rfl⟩
  · by_cases h : some pid ≠ st.process_on_cpu
    · simp [contextSwitchPhase, h]
    · simp [contextSwitchPhase, h]
  · intro h
    have hne : some pid ≠ st.process_on_cpu := by simp [h]
    simp [contextSwitchPhase, hne]

/-- Witness for claim C6: from the initial empty-CPU state, selecting
process 7 with context switch time 3 advances the clock from 0 to 3. -/
theorem claim_C6_witness :
    (contextSwitchPhase 3 7 (initSimState [] [])).time = 0 + 3 ∧
    (contextSwitchPhase 3 7 (initSimState [] [])).process_on_cpu = some 7 :=
  (claim_C6 3 7 (initSimState [] []) [] []).2.1 rfl

/-- Claim C1 as amended: the engine loop terminates normally as soon as
the events queue is empty, whatever the states of the processes; no
invariant check relates queue emptiness to process termination. -/
theorem claim_C1 (cs : ℚ) (pol : Policy) (fuel : Nat) (st : SimState)
    (h : st.events_queue = []) : runLoop cs pol fuel st = .ok st := by
  cases fuel <;> simp [runLoop, h]

/-- Evaluation of workload generation for cfgOne on the all-ones stream:
one process arriving at time 1 with service time 1. -/
theorem genOne_eval : generate_and_init cfgOne (rngOne none) = .ok ([pGen], [eGen]) := by
  norm_num [generate_and_init, genLoop, Process.make, Event.make, insort, cfgOne,
    rngOne, pGen, eGen]

/-- Evaluation of the first loop iteration of the drain-policy run: the
arrival is popped, the clock moves to 1, the process becomes READY and
takes the CPU, and the PROC_CPU_DONE follow-up leaves the queue empty. -/
theorem stepOne_eval : runStep 0 polDrain (⟨0, [eGen], [pGen], none, []⟩ : SimState) =
    .ok ⟨1, [], [pRdy], some 0, [eGen]⟩ := by
  norm_num [runStep, updateProcessStates, contextSwitchPhase, firstReady, polDrain,
    List.find?, insort, pGen, eGen, pRdy, Option.some_ne_none, reduceCtorEq]

/-- Counterexample to claim C1 as stated: a full run (one generated
process, a dispatcher reporting PROC_CPU_DONE without terminating it)
drains the queue and returns normally while the process is still READY,
instead of failing with an engine invariant violation. -/
theorem claim_C1_cex :
    runOutcome (run cfgOne polDrain rngOne none 3) =
      some [ProcessStates.READY] := by
  norm_num [run, genOne_eval, stepOne_eval, runLoop, runOutcome, pRdy, initSimState,
    show cfgOne.context_switch_time = 0 from rfl]

/-- Witness for the amended claim C1: with an empty queue and one
unterminated NEW process, the loop returns the state unchanged. -/
theorem claim_C1_witness :
    runLoop 0 polDrain 5
      (initSimState [⟨0, 0, 1, ProcessStates.NEW, 1, []⟩] []) =
      .ok (initSimState [⟨0, 0, 1, ProcessStates.NEW, 1, []⟩] []) :=
  claim_C1 0 polDrain 5 _ rfl

/-- Counterexample to claim C7 as stated: a configuration with mean burst
time 0 is accepted by the constructor, but workload generation then fails
(the drawn service time is 0 times the standard draw, i.e. 0, which the
Process constructor rejects) instead of producing processes with
zero-length bursts. -/
theorem claim_C7_cex :
    SchedulerDES.make 1 1 0 0 none = .ok ⟨1, 1, 0, 0, none⟩ ∧
    generate_and_init ⟨1, 1, 0, 0, none⟩ (fun _ => 1) =
      .error .invalidConfiguration := by
  constructor
  · rfl
  · norm_num [generate_and_init, genLoop, Process.make]

/-- Claim C7 as amended: with all other parameters valid, a mean burst
time of exactly 0 passes the constructor validation, but generation always
fails with the configuration error raised by the Process constructor,
since every drawn service time equals 0. -/
theorem claim_C7 (num : Int) (rate cs : ℚ) (q : Option ℚ) (rng : Nat → ℚ)
    (h1 : 0 < num) (h2 : 0 < rate) (h3 : 0 ≤ cs)
    (h4 : quantumOk q = true) :
    SchedulerDES.make num rate 0 cs q = .ok ⟨num.toNat, rate, 0, cs, q⟩ ∧
    generate_and_init ⟨num.toNat, rate, 0, cs, q⟩ rng =
      .error .invalidConfiguration := by
  constructor
  · simp [SchedulerDES.make, h1, h2, h3, h4]
  · obtain ⟨m, hm⟩ : ∃ m, num.toNat = m + 1 := ⟨num.toNat - 1, by omega⟩
    have hg : generate_and_init ⟨num.toNat, rate, 0, cs, q⟩ rng =
        genLoop rate 0 rng num.toNat 0 0 [] [] := rfl
    rw [hg, hm]
    by_cases ha : (0 : ℚ) ≤ 0 + 1 / rate * rng 0
    · simp [genLoop, Process.make, ha]
    · simp [genLoop, Process.make, ha]

/-- Witness for the amended claim C7 at two processes, arrival rate 1,
zero switch cost, quantum 1 and the all-ones draw stream. -/
theorem claim_C7_witness :
    SchedulerDES.make 2 1 0 0 (some 1) = .ok ⟨2, 1, 0, 0, some 1⟩ ∧
    generate_and_init ⟨2, 1, 0, 0, some 1⟩ (fun _ => 1) =
      .error .invalidConfiguration :=
  claim_C7 2 1 0 (some 1) (fun _ => 1) (by norm_num) (by norm_num)
    le_rfl (by decide)

/-- Inserting with insort leaves the head either the new event or the old
head. -/
theorem insort_head (e : Event) (l : List Event) :
    (insort e l).head? = some e ∨ (insort e l).head? = l.head? := by
  cases l with
  | nil => left; rfl
  | cons y ys =>
    by_cases hc : e.event_time < y.event_time
    · left; simp [insort, hc]
    · right; simp [insort, hc]

/-- insort preserves the non-decreasing order of event times. -/
theorem insort_timeOrdered (e : Event) (l : List Event)
    (h : timeOrdered l) : timeOrdered (insort e l) := by
  induction l with
  | nil => simp [insort, timeOrdered]
  | cons y ys ih =>
    by_cases hc : e.event_time < y.event_time
    · simp only [insort, if_pos hc]
      exact List.chain'_cons.mpr ⟨le_of_lt hc, h⟩
    · simp only [insort, if_neg hc]
      apply List.chain'_cons'.mpr
      refine ⟨?_, ih (List.Chain'.tail h)⟩
      intro z hz
      rcases insort_head e ys with hh | hh
      · rw [hh] at hz
        have hz' : e = z := by
          simpa using hz
        rw [← hz']
        exact le_of_not_lt hc
      · rw [hh] at hz
        exact (List.chain'_cons'.mp h).1 z hz

/-- Each queue operation preserves the non-decreasing order of event
times. -/
theorem applyOp_timeOrdered (q : List Event) (op : QueueOp)
    (h : timeOrdered q) : timeOrdered (applyOp q op) := by
  cases op with
  | insert e => exact insort_timeOrdered e q h
  | popEarliest => exact List.Chain'.tail h

/-- Claim C4: for every sequence of insertions and removals of the
earliest element, starting from the empty queue, a linear scan of the
resulting queue is non-decreasing in event time; since every prefix of
the sequence is itself such a sequence, the invariant holds after each
operation. -/
theorem claim_C4 (ops : List QueueOp) : timeOrdered (ops.foldl applyOp []) := by
  suffices h : ∀ q, timeOrdered q → timeOrdered (ops.foldl applyOp q) by
    exact h [] (by simp [timeOrdered])
  induction ops with
  | nil => intro q hq; exact hq
  | cons op rest ih =>
    intro q hq
    exact ih (applyOp q op) (applyOp_timeOrdered q op hq)

/-- The context-switch step never lowers the clock when the switch cost is
non-negative. -/
theorem contextSwitchPhase_time_mono (cs : ℚ) (pid : Nat) (st : SimState)
    (hcs : 0 ≤ cs) : st.time ≤ (contextSwitchPhase cs pid st).time := by
  unfold contextSwitchPhase
  split
  · simp
    linarith
  · exact le_rfl

/-- One successful engine step never lowers the clock, provided the
context switch cost is non-negative and the dispatcher honours its
contract of returning follow-up events no earlier than the clock at
dispatch. -/
theorem runStep_time_mono (cs : ℚ) (pol : Policy) (st st' : SimState)
    (hcs : 0 ≤ cs)
    (hd : ∀ s p, s.time ≤ (pol.dispatcher_func s p).2.event_time)
    (h : runStep cs pol st = .ok st') : st.time ≤ st'.time := by
  unfold runStep at h
  cases hq : st.events_queue with
  | nil => rw [hq] at h; exact absurd h (by simp)
  | cons ev rest =>
    rw [hq] at h
    simp only at h
    split at h
    · exact absurd h (by simp)
    · split at h
      · exact absurd h (by simp)
      · rename_i p hsch hrdy
        have hinj := Except.ok.inj h
        have hst : st'.time =
            (pol.dispatcher_func
              (contextSwitchPhase cs p.process_id
                { st with
                    time := if st.time < ev.event_time then ev.event_time
                            else st.time,
                    events_queue := rest,
                    processes := updateProcessStates
                      (if st.time < ev.event_time then ev.event_time else st.time)
                      st.processes,
                    trace := st.trace ++ [ev] }) p).2.event_time := by
          rw [← hinj]
        rw [hst]
        have h1 : st.time ≤
            (if st.time < ev.event_time then ev.event_time else st.time) := by
          split
          · linarith
          · exact le_rfl
        refine le_trans h1 (le_trans ?_ (hd _ p))
        exact contextSwitchPhase_time_mono cs p.process_id _ hcs

/-- The first clock observation of the loop, when one exists, is the
clock of the state the loop starts from. -/
theorem runTimes_head (cs : ℚ) (pol : Policy) (fuel : Nat) (st : SimState)
    (x : ℚ) (hx : x ∈ (runTimes cs pol fuel st).head?) : x = st.time := by
  cases fuel with
  | zero => simp [runTimes] at hx
  | succ n =>
    unfold runTimes at hx
    by_cases he : st.events_queue.isEmpty
    · rw [if_pos he] at hx
      simp at hx
    · rw [if_neg he] at hx
      cases hs : runStep cs pol st with
      | error e => rw [hs] at hx; simpa using hx.symm
      | ok st' => rw [hs] at hx; simpa using hx.symm

/-- Claim C5 as amended: provided the context switch cost is non-negative
and the dispatcher honours the documented contract of returning follow-up
events no earlier than the clock at dispatch, the clock values observed at
the start of the loop iterations of a run are non-decreasing. -/
theorem claim_C5 (cs : ℚ) (pol : Policy)
    (hcs : 0 ≤ cs)
    (hd : ∀ s p, s.time ≤ (pol.dispatcher_func s p).2.event_time) :
    ∀ (fuel : Nat) (st : SimState),
      List.Chain' (fun a b : ℚ => a ≤ b) (runTimes cs pol fuel st) := by
  intro fuel
  induction fuel with
  | zero => intro st; simp [runTimes]
  | succ n ih =>
    intro st
    unfold runTimes
    by_cases he : st.events_queue.isEmpty
    · rw [if_pos he]; exact List.chain'_nil
    · rw [if_neg he]
      cases hs : runStep cs pol st with
      | error e => exact List.chain'_singleton _
      | ok st' =>
        apply List.chain'_cons'.mpr
        refine ⟨?_, ih st'⟩
        intro y hy
        rw [runTimes_head cs pol n st' y hy]
        exact runStep_time_mono cs pol st st' hcs hd hs

/-- Witness for the amended claim C5: the drain policy satisfies the
dispatch contract, and with zero switch cost the observed clocks of its
run from stBackward are non-decreasing. -/
theorem claim_C5_witness :
    List.Chain' (fun a b : ℚ => a ≤ b) (runTimes 0 polDrain 2 stBackward) :=
  claim_C5 0 polDrain le_rfl (fun s p => le_rfl) 2 stBackward

/-- Claim C9: the run is a function of the configuration, the policy and
the draw stream selected by the seed alone: two invocations whose draw
streams agree on the given seed produce the same result, hence the same
processed-event sequence and the same final per-process turnaround and
waiting times.  Policies are pure functions here, so a deterministic
policy is any value of the Policy type. -/
theorem claim_C9 (cfg : DESConfig) (pol : Policy)
    (rngF1 rngF2 : Option Nat → Nat → ℚ) (seed : Option Nat) (fuel : Nat)
    (h : ∀ n, rngF1 seed n = rngF2 seed n) :
    run cfg pol rngF1 seed fuel = run cfg pol rngF2 seed fuel ∧
    (run cfg pol rngF1 seed fuel).map SimState.trace =
      (run cfg pol rngF2 seed fuel).map SimState.trace ∧
    (run cfg pol rngF1 seed fuel).map finalStatistics =
      (run cfg pol rngF2 seed fuel).map finalStatistics := by
  have hs : rngF1 seed = rngF2 seed := funext h
  unfold run
  rw [hs]
  exact ⟨rfl, rfl, rfl⟩

/-- Witness for claim C9: rngOne and rngTwo are different stream families
that agree on the seed none, and the two runs coincide. -/
theorem claim_C9_witness :
    run cfgOne polFinish rngOne none 3 = run cfgOne polFinish rngTwo none 3 ∧
    (run cfgOne polFinish rngOne none 3).map SimState.trace =
      (run cfgOne polFinish rngTwo none 3).map SimState.trace ∧
    (run cfgOne polFinish rngOne none 3).map finalStatistics =
      (run cfgOne polFinish rngTwo none 3).map finalStatistics :=
  claim_C9 cfgOne polFinish rngOne rngTwo none 3
    (fun n => by simp [rngOne, rngTwo])

/-- Evaluation of the first backward-policy step: the arrival at time 0 is
processed and the dispatcher reports a follow-up at time 5. -/
theorem stepBackward1_eval :
    runStep 0 polBackward
      (⟨0, [⟨0, 0, EventTypes.PROC_ARRIVES⟩],
        [⟨0, 0, 1, ProcessStates.NEW, 1, []⟩], none, []⟩ : SimState) =
      .ok ⟨5, [⟨0, 5, EventTypes.PROC_CPU_REQ⟩],
            [⟨0, 0, 1, ProcessStates.READY, 1, []⟩], some 0,
            [⟨0, 0, EventTypes.PROC_ARRIVES⟩]⟩ := by
  norm_num [runStep, updateProcessStates, contextSwitchPhase, firstReady,
    polBackward, List.find?, insort, Option.some_ne_none, reduceCtorEq]
  decide

/-- Evaluation of the second backward-policy step: the follow-up at time 5
is processed and the dispatcher reports a follow-up at time 2, which the
engine adopts as the new clock value. -/
theorem stepBackward2_eval :
    runStep 0 polBackward
      (⟨5, [⟨0, 5, EventTypes.PROC_CPU_REQ⟩],
        [⟨0, 0, 1, ProcessStates.READY, 1, []⟩], some 0,
        [⟨0, 0, EventTypes.PROC_ARRIVES⟩]⟩ : SimState) =
      .ok ⟨2, [⟨0, 2, EventTypes.PROC_CPU_REQ⟩],
            [⟨0, 0, 1, ProcessStates.READY, 1, []⟩], some 0,
            [⟨0, 0, EventTypes.PROC_ARRIVES⟩,
             ⟨0, 5, EventTypes.PROC_CPU_REQ⟩]⟩ := by
  norm_num [runStep, updateProcessStates, contextSwitchPhase, firstReady,
    polBackward, List.find?, insort, Option.some_ne_none, reduceCtorEq]
  decide

/-- Evaluation of the third backward-policy step, observing the clock
already moved back to 2. -/
theorem stepBackward3_eval :
    runStep 0 polBackward
      (⟨2, [⟨0, 2, EventTypes.PROC_CPU_REQ⟩],
        [⟨0, 0, 1, ProcessStates.READY, 1, []⟩], some 0,
        [⟨0, 0, EventTypes.PROC_ARRIVES⟩,
         ⟨0, 5, EventTypes.PROC_CPU_REQ⟩]⟩ : SimState) =
      .ok ⟨2, [⟨0, 2, EventTypes.PROC_CPU_REQ⟩],
            [⟨0, 0, 1, ProcessStates.READY, 1, []⟩], some 0,
            [⟨0, 0, EventTypes.PROC_ARRIVES⟩,
             ⟨0, 5, EventTypes.PROC_CPU_REQ⟩,
             ⟨0, 2, EventTypes.PROC_CPU_REQ⟩]⟩ := by
  norm_num [runStep, updateProcessStates, contextSwitchPhase, firstReady,
    polBackward, List.find?, insort, Option.some_ne_none, reduceCtorEq]
  decide

/-- Counterexample to claim C5 as stated: a run of the engine loop with a
policy whose dispatcher returns a follow-up event earlier than the clock
observes the start-of-iteration clock values 0, 5, 2 — the unconditional
adoption of the follow-up event time moves the clock backward. -/
theorem claim_C5_cex :
    runTimes 0 polBackward 3 stBackward = [0, 5, 2] ∧
    ¬ List.Chain' (fun a b : ℚ => a ≤ b)
        (runTimes 0 polBackward 3 stBackward) := by
  have ht : runTimes 0 polBackward 3 stBackward = [0, 5, 2] := by
    norm_num [runTimes, stBackward, initSimState, stepBackward1_eval,
      stepBackward2_eval, stepBackward3_eval]
  refine ⟨ht, ?_⟩
  rw [ht]
  norm_num [List.chain'_cons]
